import Mathlib

/-!
Shallow embedding of `image_browser/__main__.py` (a Flask image gallery) and
proofs about its scanner, caption loader, thumbnail cache, pagination and
delete operations.

Filesystem directories are modelled as lists of names; external effects
(image decoding by the imaging library, `os.remove` failures) are modelled
by explicit oracle parameters, since the Python source delegates them to
the OS and to the imaging library.
-/

namespace ImageBrowser

/-! ## Configuration constants (lines 10-25 of the source) -/

def CACHE_DIR : String := "/tmp/image_browser"

def IMAGES_PER_PAGE : Nat := 12

/-- Keys of the `SIZE_CONFIGS` dict, in insertion order. -/
def SIZE_KEYS : List String := ["small", "medium", "large"]

/-- Contents of `SIZE_CONFIGS`: each tier maps to a maximum bounding box. -/
def SIZE_CONFIGS : List (String × Nat × Nat) :=
  [("small", 150, 150), ("medium", 300, 300), ("large", 600, 600)]

/-! ## Path helpers (`os.path.basename`, `os.path.splitext`, `os.path.join`)

These mirror CPython `posixpath` semantics for the inputs this program
builds: `basename` keeps the part after the last slash;
`splitextRoot` drops the extension starting at the last dot, except when
every character before that dot (within the final path component) is a
dot, in which case there is no extension. -/

/-- Characters of a path after the last slash. -/
def basenameList (l : List Char) : List Char :=
  (l.reverse.takeWhile (fun c => c != '/')).reverse

def basename (s : String) : String :=
  ⟨basenameList s.data⟩

/-- Root part of `os.path.splitext` on a single path component
(no slash): cut at the last dot, unless all characters before that dot
are dots. -/
def splitextBaseName (name : List Char) : List Char :=
  let revName := name.reverse
  let afterDot := revName.takeWhile (fun c => c != '.')
  if afterDot.length = revName.length then name
  else
    let rootRev := revName.drop (afterDot.length + 1)
    if rootRev.any (fun c => c != '.') then rootRev.reverse else name

/-- Embedding of `os.path.splitext(s)[0]`: the directory part is
untouched, the final component loses its extension. -/
def splitextRoot (s : String) : String :=
  let cs := s.data
  let name := basenameList cs
  ⟨cs.take (cs.length - name.length) ++ splitextBaseName name⟩

/-- Embedding of `os.path.join(a, b)` for the absolute-plus-relative
shapes this program uses. -/
def path_join (a b : String) : String :=
  if b.data.head? = some '/' then b
  else if a = "" ∨ a.data.getLast? = some '/' then a ++ b
  else a ++ "/" ++ b

/-! ## Image Directory Scanner (`get_image_files`, lines 27-39)

The directory state is `none` when `IMAGE_DIR` does not exist, otherwise
`some` of the list of direct-child names returned by `os.listdir`. -/

/-! Python compares strings lexicographically by code point.  We embed that
comparison as an executable Boolean function on the character lists and
prove below that it agrees with the Mathlib lexicographic `String` order. -/

/-- Lexicographic (code-point) comparison of character lists, as Python
compares strings. -/
def charListLe : List Char → List Char → Bool
  | [], _ => true
  | _ :: _, [] => false
  | a :: as, b :: bs => if a = b then charListLe as bs else decide (a < b)

/-- Embedding of the Python string comparison `<=`. -/
def pyStrLe (a b : String) : Prop := charListLe a.data b.data = true

instance decPyStrLe : DecidableRel pyStrLe := fun a b =>
  inferInstanceAs (Decidable (charListLe a.data b.data = true))

theorem charListLe_iff (as bs : List Char) :
    charListLe as bs = true ↔ (as = bs ∨ List.Lex (· < ·) as bs) := by
  induction as generalizing bs with
  | nil =>
    cases bs with
    | nil => simp [charListLe]
    | cons b bs => simp [charListLe, List.Lex.nil]
  | cons a as ih =>
    cases bs with
    | nil =>
      simp only [charListLe, List.cons_ne_nil, false_or, Bool.false_eq_true]
      exact iff_of_false (by simp) (List.Lex.not_nil_right _ _)
    | cons b bs =>
      by_cases hab : a = b
      · subst hab
        have h1 : charListLe (a :: as) (a :: bs) = charListLe as bs := by
          simp [charListLe]
        rw [h1, ih]
        constructor
        · rintro (rfl | h)
          · exact Or.inl rfl
          · exact Or.inr (List.Lex.cons h)
        · rintro (heq | h)
          · injection heq with h2 h3
            exact Or.inl h3
          · exact Or.inr (List.Lex.cons_iff.mp h)
      · simp only [charListLe, if_neg hab, decide_eq_true_eq, List.cons.injEq]
        constructor
        · intro h
          exact Or.inr (List.Lex.rel h)
        · rintro (⟨h, -⟩ | h)
          · exact absurd h hab
          · cases h with
            | cons h => exact absurd rfl hab
            | rel h => exact h

/-- Agreement of `pyStrLe` with the Mathlib lexicographic order on `String`. -/
theorem pyStrLe_iff_le (a b : String) : pyStrLe a b ↔ a ≤ b := by
  rw [pyStrLe, charListLe_iff, String.le_iff_toList_le]
  exact Iff.rfl

theorem pyStrLe_total (a b : String) : pyStrLe a b ∨ pyStrLe b a := by
  rw [pyStrLe_iff_le, pyStrLe_iff_le]
  exact le_total a b

theorem pyStrLe_trans {a b c : String} (h₁ : pyStrLe a b) (h₂ : pyStrLe b c) :
    pyStrLe a c := by
  rw [pyStrLe_iff_le] at h₁ h₂ ⊢
  exact le_trans h₁ h₂

instance : IsTotal String pyStrLe := ⟨pyStrLe_total⟩

instance : IsTrans String pyStrLe := ⟨fun _ _ _ => pyStrLe_trans⟩

/-- The tuple of allowed extensions (line 29). -/
def extensions : List String :=
  [".png", ".jpg", ".jpeg", ".gif", ".bmp", ".webp"]

/-- Line 34, the test `filename.lower().endswith(extensions)`.  Lowercasing is done
characterwise (the extensions are pure ASCII). -/
def hasImageExt (f : String) : Bool :=
  extensions.any (fun e => e.data.isSuffixOf (f.data.map Char.toLower))

/-- Scanner `get_image_files()` (lines 27-39): collect matching direct children,
then `list.sort()` (ascending code-point lexicographic order, which is the
order given by the `LinearOrder` on `String`). -/
def get_image_files (dir : Option (List String)) : List String :=
  match dir with
  | none => []
  | some files => List.insertionSort pyStrLe (files.filter hasImageExt)

/-! ## Theorems for claim C2 -/

/-- C2: for every directory state, `get_image_files` returns exactly the
direct-child filenames whose lowercased suffix is an allowed image
extension (a permutation of the filtered listing, so non-matching files
are excluded), sorted ascending in case-sensitive lexicographic order;
a missing directory yields `[]`; and on the listing
`a.jpg, B.png, c.gif` the result is `["B.png", "a.jpg", "c.gif"]`
(uppercase sorts first). -/
theorem get_image_files_spec :
    get_image_files none = [] ∧
    (∀ files : List String,
      (get_image_files (some files)).Perm (files.filter hasImageExt) ∧
      List.Sorted (· ≤ ·) (get_image_files (some files))) ∧
    get_image_files (some ["a.jpg", "B.png", "c.gif"]) =
      ["B.png", "a.jpg", "c.gif"] := by
  refine ⟨rfl, fun files => ⟨?_, ?_⟩, by decide⟩
  · exact List.perm_insertionSort _ _
  · exact ((List.sorted_insertionSort pyStrLe _).imp
      (fun h => (pyStrLe_iff_le _ _).mp h))

/-! ## Pagination Engine (`index`, lines 114-130, numeric branch)

`page` arrives as a Python `int` (possibly zero or negative), so it is an
`Int` here; `images_per_page` is one of the coerced positive values, so a
`Nat`.  The Python `math.ceil(total / s)` is the exact rational ceiling for
every list length representable in a float (lengths are far below 2^53),
embedded here as the Nat ceiling `(total + s - 1) / s`. -/

structure PageResult where
  page_images : List String
  page : Int
  total_pages : Nat
  deriving Repr, DecidableEq

/-- Lines 122-130 of `index`: `total_pages = max(1, ceil(total/s))`,
`page = max(1, min(page, total_pages))`, and the slice
`image_files[start_idx:end_idx]` with `start_idx = (page-1)*s`,
`end_idx = start_idx + s`. -/
def paginate (files : List String) (page : Int) (s : Nat) : PageResult :=
  let total := files.length
  let tp := max 1 ((total + s - 1) / s)
  let p := max 1 (min page (tp : Int))
  let start := (p - 1).toNat * s
  ⟨(files.drop start).take s, p, tp⟩

/-- The exact Nat ceiling used in `paginate` is the rational ceiling
`⌈total / s⌉` the spec speaks of. -/
theorem add_pred_div_eq_ceil (total s : Nat) (hs : 0 < s) :
    (total + s - 1) / s = ⌈(total : ℚ) / (s : ℚ)⌉₊ := by
  refine eq_of_forall_ge_iff (fun c => ?_)
  rw [Nat.ceil_le, div_le_iff₀ (by positivity), show (total + s - 1) / s =
    total ⌈/⌉ s from rfl, ceilDiv_le_iff_le_mul hs, mul_comm (c : ℚ)]
  exact_mod_cast Iff.rfl

/-- C1: for every file list, requested page (any integer) and positive
numeric page size `s`, `paginate` returns `totalPages = max 1 ⌈total/s⌉`
(at least 1 even for an empty list), a clamped page number `p` with
`1 ≤ p ≤ totalPages`, and the slice whose `i`-th entry is the file at
index `(p-1)*s + i` of the sorted list for `i < s` (and nothing past
`s`): the contiguous sub-range `[(p-1)*s, p*s)` intersected with the
list bounds.  Out-of-range page numbers are clamped, never rejected. -/
theorem paginate_spec (files : List String) (page : Int) (s : Nat)
    (hs : 0 < s) :
    (paginate files page s).total_pages =
      max 1 ⌈(files.length : ℚ) / (s : ℚ)⌉₊ ∧
    1 ≤ (paginate files page s).page ∧
    (paginate files page s).page ≤ ((paginate files page s).total_pages : Int) ∧
    (∀ i : Nat,
      ((paginate files page s).page_images).get? i =
        if i < s then
          files.get? (((paginate files page s).page - 1).toNat * s + i)
        else none) := by
  refine ⟨?_, ?_, ?_, ?_⟩
  · simp only [paginate]
    rw [add_pred_div_eq_ceil files.length s hs]
  · exact le_max_left 1 _
  · have h1 : (1 : Int) ≤ (max 1 ((files.length + s - 1) / s) : Nat) := by
      exact_mod_cast le_max_left 1 ((files.length + s - 1) / s)
    simp only [paginate]
    exact max_le h1 (min_le_right _ _)
  · intro i
    simp only [paginate]
    by_cases hi : i < s
    · rw [if_pos hi, List.get?_eq_getElem?, List.get?_eq_getElem?,
        List.getElem?_take_of_lt hi, List.getElem?_drop]
    · rw [if_neg hi]
      refine List.get?_eq_none.mpr ?_
      calc (List.take s _).length ≤ s := List.length_take_le s _
        _ ≤ i := Nat.le_of_not_lt hi

/-- Witness for C1, at the scenario of the spec: 10 files, requested page
100, page size 1 clamps to page 10 and returns the 10th file. -/
theorem paginate_spec_witness :
    1 ≤ (paginate ["a", "b", "c", "d", "e", "f", "g", "h", "i", "j"] 100 1).page ∧
    (paginate ["a", "b", "c", "d", "e", "f", "g", "h", "i", "j"] 100 1).page ≤
      (((paginate ["a", "b", "c", "d", "e", "f", "g", "h", "i", "j"] 100 1).total_pages : Int)) ∧
    (paginate ["a", "b", "c", "d", "e", "f", "g", "h", "i", "j"] 100 1).page_images.get? 0 =
      (if 0 < 1 then
        ["a", "b", "c", "d", "e", "f", "g", "h", "i", "j"].get?
          (((paginate ["a", "b", "c", "d", "e", "f", "g", "h", "i", "j"] 100 1).page - 1).toNat * 1 + 0)
      else none) := by
  have h := paginate_spec ["a", "b", "c", "d", "e", "f", "g", "h", "i", "j"]
    100 1 (by decide)
  exact ⟨h.2.1, h.2.2.1, h.2.2.2 0⟩

/-! ## Query-parameter handling of `index` (lines 91-109)

Absent parameters make `request.args.get` yield `none`.  The Python
`int(string)` accepts optional surrounding whitespace, an optional sign
and a nonempty run of decimal digits (with single underscores allowed
between digits); anything else raises `ValueError`, modelled as `none`. -/

def isPySpace (c : Char) : Bool :=
  c = ' ' || c = '\t' || c = '\n' || c = '\r' || c = '\x0b' || c = '\x0c'

/-- Digits after the first one: underscores may separate digits. -/
def digitsValAux : List Char → Nat → Option Nat
  | [], acc => some acc
  | '_' :: rest, acc =>
    match rest with
    | c :: rest2 =>
      if c.isDigit then digitsValAux rest2 (acc * 10 + (c.toNat - 48)) else none
    | [] => none
  | c :: rest, acc =>
    if c.isDigit then digitsValAux rest (acc * 10 + (c.toNat - 48)) else none

/-- Value of a nonempty digit run (underscores only between digits). -/
def digitsVal : List Char → Option Nat
  | [] => none
  | c :: rest => if c.isDigit then digitsValAux rest (c.toNat - 48) else none

/-- Python `int(s)` on ASCII input: `none` models `ValueError`. -/
def pyInt (s : String) : Option Int :=
  let cs := ((s.data.dropWhile isPySpace).reverse.dropWhile isPySpace).reverse
  match cs with
  | '+' :: rest => (digitsVal rest).map (fun n => (n : Int))
  | '-' :: rest => (digitsVal rest).map (fun n => -(n : Int))
  | rest => (digitsVal rest).map (fun n => (n : Int))

/-- Line 91: `int` applied to the `page` argument, default 1.  The default is already
an `int`; a present but unparseable value raises (is `none`). -/
def parsePage (page_arg : Option String) : Option Int :=
  match page_arg with
  | none => some 1
  | some s => pyInt s

/-- Lines 92, 96-97: invalid `size` falls back to `"medium"`. -/
def validateSize (size_arg : Option String) : String :=
  let size := size_arg.getD "medium"
  if size ∈ SIZE_KEYS then size else "medium"

/-- Lines 93, 100-109: `"all"` yields `none` (show all); otherwise
`int(page_size)`, coerced to 12 when unparseable or not in the allowed
set. -/
def validatePageSize (page_size_arg : Option String) : Option Int :=
  let page_size := page_size_arg.getD "12"
  if page_size = "all" then none
  else
    match pyInt page_size with
    | some n =>
      if n = 25 ∨ n = 50 ∨ n = 100 ∨ n = 250 then some n
      else some (IMAGES_PER_PAGE : Int)
    | none => some (IMAGES_PER_PAGE : Int)

structure IndexParams where
  page : Int
  size : String
  images_per_page : Option Int
  deriving Repr, DecidableEq

/-- The parameter-handling prefix of `index` (lines 91-109).  The `page`
conversion runs first (line 91); if it raises, the handler aborts with an
uncaught `ValueError` (`none`) and no fallback runs. -/
def index_params (page_arg size_arg page_size_arg : Option String) :
    Option IndexParams :=
  match parsePage page_arg with
  | none => none
  | some page => some ⟨page, validateSize size_arg, validatePageSize page_size_arg⟩

/-- C9: `index` is not total over its query parameters: a present,
unparseable `page` (such as `"abc"`) propagates the conversion error
(`none`), with no fallback or clamping; by contrast every invalid `size`
is coerced to `"medium"` and every invalid `page_size` (not `"all"`,
and unparseable or outside {25, 50, 100, 250}) is coerced to 12. -/
theorem index_params_spec :
    (∀ (s : String) (sz ps : Option String),
      pyInt s = none → index_params (some s) sz ps = none) ∧
    index_params (some "abc") none none = none ∧
    (∀ (pg : Option String) (s : String) (ps : Option String)
      (prm : IndexParams), s ∉ SIZE_KEYS →
      index_params pg (some s) ps = some prm → prm.size = "medium") ∧
    (∀ (pg sz : Option String) (s : String) (prm : IndexParams),
      s ≠ "all" →
      (∀ n : Int, pyInt s = some n → ¬(n = 25 ∨ n = 50 ∨ n = 100 ∨ n = 250)) →
      index_params pg sz (some s) = some prm →
      prm.images_per_page = some 12) := by
  refine ⟨?_, by decide, ?_, ?_⟩
  · intro s sz ps h
    simp [index_params, parsePage, h]
  · intro pg s ps prm hs h
    cases hpg : parsePage pg with
    | none => rw [index_params, hpg] at h; exact absurd h (by simp)
    | some page =>
      rw [index_params, hpg, Option.some_inj] at h
      rw [← h]
      simp only [validateSize, Option.getD_some]
      exact if_neg hs
  · intro pg sz s prm hall hbad h
    cases hpg : parsePage pg with
    | none => rw [index_params, hpg] at h; exact absurd h (by simp)
    | some page =>
      rw [index_params, hpg, Option.some_inj] at h
      rw [← h]
      simp only [validatePageSize, Option.getD_some, if_neg hall]
      cases hparse : pyInt s with
      | none => rfl
      | some n => simp only [if_neg (hbad n hparse)]; rfl

/-- Witness for C9 at concrete inputs: `page=abc` raises, `size=huge`
coerces to medium, `page_size=13` coerces to 12. -/
theorem index_params_spec_witness :
    index_params (some "abc") none none = none ∧
    index_params none (some "huge") none =
      some ⟨1, "medium", some 12⟩ ∧
    (⟨1, "medium", some (12 : Int)⟩ : IndexParams).size = "medium" ∧
    (⟨1, "medium", some (12 : Int)⟩ : IndexParams).images_per_page =
      some 12 := by
  refine ⟨index_params_spec.1 "abc" none none (by decide), by decide, ?_, ?_⟩
  · exact index_params_spec.2.2.1 none "huge" none ⟨1, "medium", some 12⟩
      (by decide) (by decide)
  · refine index_params_spec.2.2.2 none none "13" ⟨1, "medium", some 12⟩
      (by decide) ?_ (by decide)
    intro n h
    rw [show pyInt "13" = some 13 from by decide] at h
    cases h
    decide

/-! ## Thumbnail Cache (`resize_and_cache_image`, lines 60-86)

The cache directory is a list of the paths present in it.  Decoding,
resizing and encoding are delegated to the imaging library, so their
outcome is an oracle parameter.  `failBeforeWrite` covers every failure
raised before the destination file is created (missing source, corrupt
data, unsupported format: `Image.open`, `convert` or `thumbnail` raised);
`failDuringSave` covers `img.save` failing after the library created the
destination file.  The `except` branch (lines 84-86) only logs and
returns `None`: no branch of the source removes the destination file, so
on `failDuringSave` the (possibly partial) file stays in the cache. -/

/-- Line 63: `f"{os.path.splitext(os.path.basename(image_path))[0]}_{size_key}.jpg"`
written over an already-stripped base name. -/
def tier_filename (base size_key : String) : String :=
  base ++ "_" ++ size_key ++ ".jpg"

def cache_filename_for (image_path size_key : String) : String :=
  tier_filename (splitextRoot (basename image_path)) size_key

/-- Line 64: the cache path is a pure function of (base name, tier). -/
def cache_path_of_key (base size_key : String) : String :=
  path_join CACHE_DIR (tier_filename base size_key)

def cache_path_for (image_path size_key : String) : String :=
  path_join CACHE_DIR (cache_filename_for image_path size_key)

structure CacheState where
  files : List String
  deriving Repr, DecidableEq

inductive EncodeOutcome where
  | ok
  | failBeforeWrite
  | failDuringSave
  deriving Repr, DecidableEq

structure ResizeResult where
  state : CacheState
  result : Option String
  encoded : Bool
  deriving Repr, DecidableEq

/-- Thumbnail resolution `resize_and_cache_image` (lines 60-86): return the cache path
immediately when the file exists (lines 67-68, no mtime or content
validation); otherwise decode, resize and save (lines 70-83), catching
every exception and returning `None` (lines 84-86). -/
def resize_and_cache_image (st : CacheState) (outcome : EncodeOutcome)
    (image_path size_key : String) : ResizeResult :=
  let cache_path := cache_path_for image_path size_key
  if cache_path ∈ st.files then ⟨st, some cache_path, false⟩
  else
    match outcome with
    | .ok => ⟨⟨cache_path :: st.files⟩, some cache_path, true⟩
    | .failBeforeWrite => ⟨st, none, true⟩
    | .failDuringSave => ⟨⟨cache_path :: st.files⟩, none, true⟩

/-- C3: if a file already exists at the derived cache path, the call
returns that path immediately: state untouched, no decode or re-encode,
and no validation of the source (the outcome oracle is irrelevant);
hence after any successful call, a second call with the same key is a
pure cache hit returning the same path. -/
theorem resize_and_cache_image_idempotent :
    (∀ (st : CacheState) (o : EncodeOutcome) (image_path size_key : String),
      cache_path_for image_path size_key ∈ st.files →
      resize_and_cache_image st o image_path size_key =
        ⟨st, some (cache_path_for image_path size_key), false⟩) ∧
    (∀ (st : CacheState) (o₁ o₂ : EncodeOutcome)
      (image_path size_key p : String),
      (resize_and_cache_image st o₁ image_path size_key).result = some p →
      resize_and_cache_image (resize_and_cache_image st o₁ image_path size_key).state
          o₂ image_path size_key =
        ⟨(resize_and_cache_image st o₁ image_path size_key).state, some p, false⟩) := by
  constructor
  · intro st o image_path size_key h
    simp [resize_and_cache_image, if_pos h]
  · intro st o₁ o₂ image_path size_key p h
    by_cases hmem : cache_path_for image_path size_key ∈ st.files
    · rw [show resize_and_cache_image st o₁ image_path size_key =
        ⟨st, some (cache_path_for image_path size_key), false⟩ from by
          simp [resize_and_cache_image, if_pos hmem]] at h ⊢
      rw [show p = cache_path_for image_path size_key from by
        simpa using h.symm]
      simp [resize_and_cache_image, if_pos hmem]
    · cases o₁ with
      | ok =>
        rw [show resize_and_cache_image st .ok image_path size_key =
          ⟨⟨cache_path_for image_path size_key :: st.files⟩,
            some (cache_path_for image_path size_key), true⟩ from by
            simp [resize_and_cache_image, if_neg hmem]] at h ⊢
        rw [show p = cache_path_for image_path size_key from by
          simpa using h.symm]
        simp [resize_and_cache_image, List.mem_cons_self]
      | failBeforeWrite =>
        rw [show resize_and_cache_image st .failBeforeWrite image_path size_key =
          ⟨st, none, true⟩ from by simp [resize_and_cache_image, if_neg hmem]] at h
        simp at h
      | failDuringSave =>
        rw [show resize_and_cache_image st .failDuringSave image_path size_key =
          ⟨⟨cache_path_for image_path size_key :: st.files⟩, none, true⟩ from by
            simp [resize_and_cache_image, if_neg hmem]] at h
        simp at h

/-- Witness for C3: a hit on a warm cache, and a miss-then-hit pair. -/
theorem resize_and_cache_image_idempotent_witness :
    resize_and_cache_image ⟨["/tmp/image_browser/a_small.jpg"]⟩ .failBeforeWrite
        "a.jpg" "small" =
      ⟨⟨["/tmp/image_browser/a_small.jpg"]⟩,
        some "/tmp/image_browser/a_small.jpg", false⟩ ∧
    resize_and_cache_image
        (resize_and_cache_image ⟨[]⟩ .ok "a.jpg" "small").state .failBeforeWrite
        "a.jpg" "small" =
      ⟨(resize_and_cache_image ⟨[]⟩ .ok "a.jpg" "small").state,
        some "/tmp/image_browser/a_small.jpg", false⟩ := by
  constructor
  · have h := resize_and_cache_image_idempotent.1
      ⟨["/tmp/image_browser/a_small.jpg"]⟩ .failBeforeWrite "a.jpg" "small"
      (by decide)
    rw [h]
    decide
  · exact resize_and_cache_image_idempotent.2 ⟨[]⟩ .ok .failBeforeWrite
      "a.jpg" "small" "/tmp/image_browser/a_small.jpg" (by decide)

/-- C4 counterexample: the claim asserts that after ANY failed call —
including an I/O error during save — no new or partial file exists at
the cache path.  On a cold cache, when the save by the imaging library fails
after creating the destination file, the call returns `None` yet the
file is present at the cache path: the source never cleans up. -/
theorem resize_and_cache_image_save_error_leaves_file :
    (resize_and_cache_image ⟨[]⟩ .failDuringSave "a.jpg" "small").result =
      none ∧
    cache_path_for "a.jpg" "small" ∈
      (resize_and_cache_image ⟨[]⟩ .failDuringSave "a.jpg" "small").state.files := by
  decide

/-- C4 (amended): every failure returns `None` instead of raising; when
the failure happens before the destination file is created (missing
source, corrupt data, unsupported format), the cache is left unchanged —
no new file exists at the cache path; when the save itself fails, `None`
is still returned, but the partially written file remains at the cache
path. -/
theorem resize_and_cache_image_error_spec :
    (∀ (st : CacheState) (image_path size_key : String),
      cache_path_for image_path size_key ∉ st.files →
      resize_and_cache_image st .failBeforeWrite image_path size_key =
        ⟨st, none, true⟩) ∧
    (∀ (st : CacheState) (image_path size_key : String),
      cache_path_for image_path size_key ∉ st.files →
      (resize_and_cache_image st .failDuringSave image_path size_key).result =
          none ∧
      cache_path_for image_path size_key ∈
        (resize_and_cache_image st .failDuringSave image_path size_key).state.files) := by
  constructor
  · intro st image_path size_key h
    simp [resize_and_cache_image, if_neg h]
  · intro st image_path size_key h
    constructor
    · simp [resize_and_cache_image, if_neg h]
    · simp [resize_and_cache_image, if_neg h]

/-- Witness for the amended C4 on a cold cache. -/
theorem resize_and_cache_image_error_spec_witness :
    resize_and_cache_image ⟨[]⟩ .failBeforeWrite "a.jpg" "small" =
      ⟨⟨[]⟩, none, true⟩ ∧
    (resize_and_cache_image ⟨[]⟩ .failDuringSave "a.jpg" "small").result =
      none := by
  constructor
  · exact resize_and_cache_image_error_spec.1 ⟨[]⟩ "a.jpg" "small" (by decide)
  · exact (resize_and_cache_image_error_spec.2 ⟨[]⟩ "a.jpg" "small" (by decide)).1

/-! ## Cache-key injectivity (claim C7) -/

/-- Two lists with a common suffix-free shape: if `u ++ p = v ++ q` and
`u` is not the `u.length`-prefix of `v`, the equation is impossible. -/
theorem append_ne_of_take_ne (u v p q : List Char)
    (h : u ++ p = v ++ q) (hle : u.length ≤ v.length)
    (hne : v.take u.length ≠ u) : False := by
  apply hne
  have h1 := congrArg (List.take u.length) h
  rw [List.take_append_of_le_length le_rfl, List.take_length,
    List.take_append_of_le_length hle] at h1
  exact h1.symm

theorem tier_filename_data (b t : String) :
    (tier_filename b t).data = b.data ++ ("_" ++ t ++ ".jpg").data := by
  simp [tier_filename, String.data_append, List.append_assoc]

/-- Equal tier filenames with tiers drawn from `SIZE_KEYS` force equal
base names and equal tiers. -/
theorem tier_filename_injective (b₁ b₂ t₁ t₂ : String)
    (h₁ : t₁ ∈ SIZE_KEYS) (h₂ : t₂ ∈ SIZE_KEYS)
    (heq : tier_filename b₁ t₁ = tier_filename b₂ t₂) :
    b₁ = b₂ ∧ t₁ = t₂ := by
  have hdata : b₁.data ++ ("_" ++ t₁ ++ ".jpg").data =
      b₂.data ++ ("_" ++ t₂ ++ ".jpg").data := by
    rw [← tier_filename_data, ← tier_filename_data, heq]
  have hrev : ("_" ++ t₁ ++ ".jpg").data.reverse ++ b₁.data.reverse =
      ("_" ++ t₂ ++ ".jpg").data.reverse ++ b₂.data.reverse := by
    rw [← List.reverse_append, ← List.reverse_append, hdata]
  have base_eq : ("_" ++ t₁ ++ ".jpg").data.reverse =
      ("_" ++ t₂ ++ ".jpg").data.reverse → b₁ = b₂ ∧ t₁ = t₂ := by
    intro hs
    refine ⟨?_, ?_⟩
    · rw [hs] at hrev
      exact String.ext (List.reverse_injective (List.append_cancel_left hrev))
    · have hflat := List.reverse_injective hs
      simp only [String.data_append] at hflat
      rw [List.append_assoc, List.append_assoc] at hflat
      have h2 := List.append_cancel_left hflat
      have h3 := congrArg (List.take t₁.data.length) h2
      have hlen : t₁.data.length = t₂.data.length := by
        have := congrArg List.length h2
        simp only [List.length_append] at this
        have h4 : (".jpg").data.length = 4 := by decide
        omega
      rw [List.take_append_of_le_length le_rfl, List.take_length,
        hlen, List.take_append_of_le_length le_rfl, List.take_length] at h3
      exact String.ext h3
  simp only [SIZE_KEYS, List.mem_cons, List.not_mem_nil, or_false] at h₁ h₂
  rcases h₁ with rfl | rfl | rfl <;> rcases h₂ with rfl | rfl | rfl
  · exact base_eq rfl
  · exact absurd hrev (fun h => append_ne_of_take_ne _ _ _ _ h
      (by decide) (by decide))
  · exact absurd hrev (fun h => append_ne_of_take_ne _ _ _ _ h
      (by decide) (by decide))
  · exact absurd hrev.symm (fun h => append_ne_of_take_ne _ _ _ _ h
      (by decide) (by decide))
  · exact base_eq rfl
  · exact absurd hrev.symm (fun h => append_ne_of_take_ne _ _ _ _ h
      (by decide) (by decide))
  · exact absurd hrev (fun h => append_ne_of_take_ne _ _ _ _ h
      (by decide) (by decide))
  · exact absurd hrev (fun h => append_ne_of_take_ne _ _ _ _ h
      (by decide) (by decide))
  · exact base_eq rfl

theorem path_join_cache (f : String) (hf : f.data.head? ≠ some '/') :
    path_join CACHE_DIR f = CACHE_DIR ++ "/" ++ f := by
  rw [path_join, if_neg hf, if_neg (by decide :
    ¬(CACHE_DIR = "" ∨ CACHE_DIR.data.getLast? = some '/'))]

theorem tier_filename_head (b t : String) (hb : b.data.head? ≠ some '/') :
    (tier_filename b t).data.head? ≠ some '/' := by
  rw [tier_filename_data]
  cases hd : b.data with
  | nil =>
    simp only [List.nil_append, String.data_append]
    intro hcon
    simp at hcon
  | cons c cs =>
    rw [hd] at hb
    simpa using hb

/-- C7: the cache path is the pure function
`CACHE_DIR/<base>_<tier>.jpg` of the key, and over the tier set
{small, medium, large} it is injective: distinct (base, tier) pairs
(bases being plain file names, so not starting with a slash) give
distinct cache paths. -/
theorem cache_path_pure_and_injective (b₁ b₂ t₁ t₂ : String)
    (h₁ : t₁ ∈ SIZE_KEYS) (h₂ : t₂ ∈ SIZE_KEYS)
    (hb₁ : b₁.data.head? ≠ some '/') (hb₂ : b₂.data.head? ≠ some '/')
    (hne : (b₁, t₁) ≠ (b₂, t₂)) :
    cache_path_of_key b₁ t₁ = CACHE_DIR ++ "/" ++ tier_filename b₁ t₁ ∧
    cache_path_of_key b₁ t₁ ≠ cache_path_of_key b₂ t₂ := by
  have hj₁ : cache_path_of_key b₁ t₁ = CACHE_DIR ++ "/" ++ tier_filename b₁ t₁ :=
    path_join_cache _ (tier_filename_head b₁ t₁ hb₁)
  have hj₂ : cache_path_of_key b₂ t₂ = CACHE_DIR ++ "/" ++ tier_filename b₂ t₂ :=
    path_join_cache _ (tier_filename_head b₂ t₂ hb₂)
  refine ⟨hj₁, fun heq => hne ?_⟩
  rw [hj₁, hj₂] at heq
  have hdata := congrArg String.data heq
  simp only [String.data_append, List.append_assoc] at hdata
  have hfile : tier_filename b₁ t₁ = tier_filename b₂ t₂ :=
    String.ext (List.append_cancel_left (List.append_cancel_left hdata))
  have hout := tier_filename_injective b₁ b₂ t₁ t₂ h₁ h₂ hfile
  rw [hout.1, hout.2]

/-- Witness for C7: `photo` at tiers small and medium give distinct
paths. -/
theorem cache_path_pure_and_injective_witness :
    cache_path_of_key "photo" "small" =
      CACHE_DIR ++ "/" ++ tier_filename "photo" "small" ∧
    cache_path_of_key "photo" "small" ≠ cache_path_of_key "photo" "medium" :=
  cache_path_pure_and_injective "photo" "photo" "small" "medium"
    (by decide) (by decide) (by decide) (by decide) (by decide)

/-! ## Delete handler (`delete_image`, lines 188-206)

The filesystem is the pair of the image-directory listing and the
cache-directory contents (full cache paths).  `removeRaises` is the
oracle for `os.remove` raising an `OSError`; when the very first removal
(the source file, line 194) raises, the handler lands in the `except`
branch and aborts with 500, with nothing yet removed. -/

structure BrowserFS where
  images : List String
  cache : List String
  deriving Repr, DecidableEq

/-- Lines 196-198: the three cache paths derived from the base name of
the filename. -/
def delete_cache_names (filename : String) : List String :=
  SIZE_KEYS.map (fun k => path_join CACHE_DIR (tier_filename (splitextRoot filename) k))

/-- Handler `delete_image` (lines 188-206): 404 when the source is absent;
otherwise remove the source and every existing cache entry of its three
tiers and answer 204; answer 500 when removal raises. -/
def delete_image (fs : BrowserFS) (removeRaises : Bool) (filename : String) :
    BrowserFS × Nat :=
  if filename ∈ fs.images then
    if removeRaises then (fs, 500)
    else
      (⟨fs.images.filter (fun g => decide (g ≠ filename)),
        fs.cache.filter (fun c => decide (c ∉ delete_cache_names filename))⟩, 204)
  else (fs, 404)

theorem delete_image_removes_source (fs : BrowserFS) (filename : String)
    (h : filename ∈ fs.images) :
    (delete_image fs false filename).2 = 204 ∧
    filename ∉ (delete_image fs false filename).1.images := by
  simp [delete_image, if_pos h, List.mem_filter]

theorem delete_image_removes_cache (fs : BrowserFS) (filename : String)
    (h : filename ∈ fs.images) :
    ∀ k ∈ SIZE_KEYS,
      path_join CACHE_DIR (tier_filename (splitextRoot filename) k) ∉
        (delete_image fs false filename).1.cache := by
  intro k hk
  have hmem : path_join CACHE_DIR (tier_filename (splitextRoot filename) k) ∈
      delete_cache_names filename := List.mem_map_of_mem _ hk
  simp [delete_image, if_pos h, List.mem_filter, hmem]

theorem delete_image_absent (fs : BrowserFS) (b : Bool) (filename : String)
    (h : filename ∉ fs.images) :
    delete_image fs b filename = (fs, 404) := by
  simp [delete_image, if_neg h]

theorem delete_image_raise (fs : BrowserFS) (filename : String)
    (h : filename ∈ fs.images) :
    delete_image fs true filename = (fs, 500) := by
  simp [delete_image, if_pos h]

theorem delete_image_keeps_other_images (fs : BrowserFS) (f₁ f₂ : String)
    (h : f₁ ∈ fs.images) (hne : f₂ ≠ f₁) :
    f₂ ∈ (delete_image fs false f₁).1.images ↔ f₂ ∈ fs.images := by
  simp [delete_image, if_pos h, List.mem_filter, hne]

/-- C5: deleting an existing file removes the source and the cache
entries of all three size tiers derived from its base name and answers
204; deleting an absent file answers 404 and changes nothing; a raising
removal answers 500. -/
theorem delete_image_spec :
    (∀ (fs : BrowserFS) (filename : String), filename ∈ fs.images →
      (delete_image fs false filename).2 = 204 ∧
      filename ∉ (delete_image fs false filename).1.images ∧
      ∀ k ∈ SIZE_KEYS,
        path_join CACHE_DIR (tier_filename (splitextRoot filename) k) ∉
          (delete_image fs false filename).1.cache) ∧
    (∀ (fs : BrowserFS) (b : Bool) (filename : String), filename ∉ fs.images →
      delete_image fs b filename = (fs, 404)) ∧
    (∀ (fs : BrowserFS) (filename : String), filename ∈ fs.images →
      (delete_image fs true filename).2 = 500) := by
  refine ⟨fun fs filename h => ?_, delete_image_absent, fun fs filename h => ?_⟩
  · exact ⟨(delete_image_removes_source fs filename h).1,
      (delete_image_removes_source fs filename h).2,
      delete_image_removes_cache fs filename h⟩
  · rw [delete_image_raise fs filename h]

/-- Witness for C5 on a one-image filesystem. -/
theorem delete_image_spec_witness :
    (delete_image ⟨["photo.jpg"], ["/tmp/image_browser/photo_small.jpg"]⟩
        false "photo.jpg").2 = 204 ∧
    "photo.jpg" ∉ (delete_image ⟨["photo.jpg"],
        ["/tmp/image_browser/photo_small.jpg"]⟩ false "photo.jpg").1.images ∧
    path_join CACHE_DIR (tier_filename (splitextRoot "photo.jpg") "small") ∉
      (delete_image ⟨["photo.jpg"], ["/tmp/image_browser/photo_small.jpg"]⟩
        false "photo.jpg").1.cache ∧
    delete_image ⟨[], []⟩ false "nope.jpg" = (⟨[], []⟩, 404) ∧
    (delete_image ⟨["photo.jpg"], []⟩ true "photo.jpg").2 = 500 := by
  have h1 := delete_image_spec.1 ⟨["photo.jpg"],
    ["/tmp/image_browser/photo_small.jpg"]⟩ "photo.jpg" (by decide)
  exact ⟨h1.1, h1.2.1, h1.2.2 "small" (by decide),
    delete_image_spec.2.1 ⟨[], []⟩ false "nope.jpg" (by decide),
    delete_image_spec.2.2 ⟨["photo.jpg"], []⟩ "photo.jpg" (by decide)⟩

/-- C10: two source images whose names differ only in extension share
the same base name, hence the same three cache keys: deleting one also
removes the cached thumbnails of the other at every tier, while the
source file of the other is untouched. -/
theorem delete_image_shared_base (fs : BrowserFS) (f₁ f₂ : String)
    (h : f₁ ∈ fs.images) (hne : f₂ ≠ f₁)
    (hbase : splitextRoot f₁ = splitextRoot f₂) :
    (∀ k ∈ SIZE_KEYS,
      path_join CACHE_DIR (tier_filename (splitextRoot f₂) k) ∉
        (delete_image fs false f₁).1.cache) ∧
    (f₂ ∈ (delete_image fs false f₁).1.images ↔ f₂ ∈ fs.images) := by
  constructor
  · rw [← hbase]
    exact delete_image_removes_cache fs f₁ h
  · exact delete_image_keeps_other_images fs f₁ f₂ h hne

/-- Witness for C10: deleting `photo.jpg` removes the cached small
thumbnail of `photo.png` but keeps `photo.png` itself. -/
theorem delete_image_shared_base_witness :
    path_join CACHE_DIR (tier_filename (splitextRoot "photo.png") "small") ∉
      (delete_image ⟨["photo.jpg", "photo.png"],
        ["/tmp/image_browser/photo_small.jpg"]⟩ false "photo.jpg").1.cache ∧
    ("photo.png" ∈ (delete_image ⟨["photo.jpg", "photo.png"],
        ["/tmp/image_browser/photo_small.jpg"]⟩ false "photo.jpg").1.images ↔
      "photo.png" ∈ ["photo.jpg", "photo.png"]) := by
  have h := delete_image_shared_base
    ⟨["photo.jpg", "photo.png"], ["/tmp/image_browser/photo_small.jpg"]⟩
    "photo.jpg" "photo.png" (by decide) (by decide) (by decide)
  exact ⟨h.1 "small" (by decide), h.2⟩

/-! ## Caption Loader (`load_caption_for_image`, lines 42-58)

The caption store maps a (relative) path to `none` when
`os.path.exists` is false, to `some none` when the file exists but
reading raises (permission or I/O error, caught at lines 55-57), and to
`some (some content)` when it is readable.  The path
`captions/<base>.txt` is relative, hence resolved against the current
working directory of the process. -/

/-- Python `str.strip()` on ASCII whitespace. -/
def pyStrip (s : String) : String :=
  ⟨((s.data.dropWhile isPySpace).reverse.dropWhile isPySpace).reverse⟩

/-- Loader `load_caption_for_image` (lines 42-58): `captions/<base>.txt`,
stripped content, empty stripped content treated as no caption, every
error collapsed to no caption. -/
def load_caption_for_image (captions : String → Option (Option String))
    (filename : String) : Option String :=
  let base_name := splitextRoot filename
  let caption_filename := base_name ++ ".txt"
  let caption_path := path_join "captions" caption_filename
  match captions caption_path with
  | none => none
  | some none => none
  | some (some content) =>
    let caption := pyStrip content
    if caption = "" then none else some caption

/-- C8: the caption path is `captions/<base>.txt` (relative, so resolved
against the current working directory, not the image directory); an
absent or unreadable file yields no caption with no propagated error; a
readable file yields its whitespace-stripped content, except that a
whitespace-only or empty file also yields no caption. -/
theorem load_caption_for_image_spec
    (captions : String → Option (Option String)) (filename : String) :
    (captions (path_join "captions" (splitextRoot filename ++ ".txt")) = none →
      load_caption_for_image captions filename = none) ∧
    (captions (path_join "captions" (splitextRoot filename ++ ".txt")) =
        some none →
      load_caption_for_image captions filename = none) ∧
    (∀ content,
      captions (path_join "captions" (splitextRoot filename ++ ".txt")) =
        some (some content) →
      load_caption_for_image captions filename =
        if pyStrip content = "" then none else some (pyStrip content)) := by
  refine ⟨fun h => ?_, fun h => ?_, fun content h => ?_⟩ <;>
    simp [load_caption_for_image, h]

/-- Witness for C8: a caption file with surrounding whitespace, a
whitespace-only caption file, and an absent caption file. -/
theorem load_caption_for_image_spec_witness :
    load_caption_for_image
      (fun p => if p = "captions/test1.txt" then some (some " A caption\n")
        else none) "test1.jpg" = some "A caption" ∧
    load_caption_for_image
      (fun p => if p = "captions/test2.txt" then some (some "  \n\t ")
        else none) "test2.png" = none ∧
    load_caption_for_image
      (fun _ => none) "test3.gif" = none := by
  refine ⟨?_, ?_, ?_⟩
  · have h := (load_caption_for_image_spec
      (fun p => if p = "captions/test1.txt" then some (some " A caption\n")
        else none) "test1.jpg").2.2 " A caption\n" (by decide)
    rw [h]
    decide
  · have h := (load_caption_for_image_spec
      (fun p => if p = "captions/test2.txt" then some (some "  \n\t ")
        else none) "test2.png").2.2 "  \n\t " (by decide)
    rw [h]
    decide
  · exact (load_caption_for_image_spec (fun _ => none) "test3.gif").1 rfl

/-! ## Process entry point (claim C6) -/

inductive MainResult where
  | exitCode : Nat → MainResult
  | serve : String → MainResult
  deriving Repr, DecidableEq

/-- Modelled from the spec: the startup entry point taking a directory
path argument.  The repository tests exercise a `main` accepting an
`--image-dir` argument that exits with code 1 on a bad path, but that
function (and the `create_app` it calls) is absent from the module under
`src/`, whose `__main__` block (lines 285-286) only calls `app.run`.
Per the spec: "a directory path argument selecting which directory is
browsed; fails fast (non-zero exit) if the path does not exist or is
not a directory".  `isDirectory` is the `os.path.isdir` oracle, false
both for a missing path and for a non-directory. -/
def main_entry (isDirectory : String → Bool) (image_dir : String) : MainResult :=
  if isDirectory image_dir then .serve image_dir else .exitCode 1

/-- C6: the entry point selects the directory given as argument, and on
a path that does not exist or is not a directory it exits with the
non-zero status 1 before serving anything. -/
theorem main_entry_spec (isDirectory : String → Bool) (d : String) :
    (isDirectory d = false →
      main_entry isDirectory d = .exitCode 1 ∧ (1 : Nat) ≠ 0) ∧
    (isDirectory d = true → main_entry isDirectory d = .serve d) := by
  constructor
  · intro h
    exact ⟨by simp [main_entry, h], by decide⟩
  · intro h
    simp [main_entry, h]

/-- Witness for C6: a missing directory exits 1, a valid one serves. -/
theorem main_entry_spec_witness :
    main_entry (fun _ => false) "/nonexistent" = .exitCode 1 ∧
    main_entry (fun _ => true) "/pictures" = .serve "/pictures" := by
  exact ⟨((main_entry_spec (fun _ => false) "/nonexistent").1 rfl).1,
    (main_entry_spec (fun _ => true) "/pictures").2 rfl⟩

end ImageBrowser
